import Mathlib

/-!
Verification development for the thinkorswim trade-string parser of the
options-tracker repository (src/utils/tradeParser.ts).

The TypeScript source is shallowly embedded: JavaScript strings become
List Char, JavaScript numbers become Int / Nat / Rat as appropriate, the
Date values produced by the parser become a plain calendar-triple record
(the parser only ever constructs dates from parsed components or from the
wall clock and never performs Date arithmetic), and the two ambient effects
of the source - Date.now()/new Date() and the random id generator - become
explicit parameters (id, now) of the embedded parse function.

The source leans on JavaScript regular expressions.  Those are embedded by
a small backtracking matcher (RE / reRun below) with JavaScript semantics:
leftmost match wins, alternation is ordered left-first, quantifiers are
greedy with backtracking, word boundaries look at ASCII word characters,
and the i-flag compares characters case-insensitively.  Each regex literal
of the source is transliterated node by node into an RE value.  The fuel
argument of reRun is only a structural-recursion artifact; the top-level
entry points always supply more fuel than any match can consume.
-/

/-- TradeAction of src/types/trade.ts. -/
inductive TradeAction : Type where
  | BUY
  | SELL
deriving DecidableEq, Repr

/-- OptionType of src/types/trade.ts. -/
inductive OptionType : Type where
  | CALL
  | PUT
deriving DecidableEq, Repr

/-- SpreadType of src/types/trade.ts. -/
inductive SpreadType : Type where
  | SINGLE
  | VERTICAL
  | CALENDAR
  | DIAGONAL
  | STRADDLE
  | STRANGLE
  | BUTTERFLY
  | CONDOR
  | IRON_CONDOR
  | RATIO
  | BACKRATIO
  | CUSTOM
  | ROLL
deriving DecidableEq, Repr

/-- OrderType of src/types/trade.ts ('STP LMT' is written STP_LMT). -/
inductive OrderType : Type where
  | LMT
  | MKT
  | STP
  | STP_LMT
deriving DecidableEq, Repr

/-- LegAction of src/types/trade.ts. -/
inductive LegAction : Type where
  | OPEN
  | CLOSE
deriving DecidableEq, Repr

/-- A JavaScript Date as the parser uses it: new Date(year, month, day)
with a 0-based month, or the current date.  The parser never normalizes
or compares dates, so the raw triple is the whole observable state. -/
structure JSDate : Type where
  year : Int
  month : Nat
  day : Int
deriving DecidableEq, Repr

/-- OptionLeg of src/types/trade.ts (legAction? becomes Option). -/
structure OptionLeg : Type where
  quantity : Int
  expiration : JSDate
  strike : Rat
  optionType : OptionType
  legAction : Option LegAction
deriving DecidableEq, Repr

/-- Trade of src/types/trade.ts, restricted to the fields the parser
produces (positionId? is never set by the parser). -/
structure Trade : Type where
  id : String
  rawInput : String
  action : TradeAction
  totalQuantity : Nat
  symbol : String
  multiplier : Int
  isWeekly : Bool
  spreadType : SpreadType
  legs : List OptionLeg
  price : Rat
  orderType : OrderType
  isGTC : Bool
  tradeDate : JSDate
deriving DecidableEq, Repr

/-! ### Character classes (JavaScript regex semantics, ASCII fragment) -/

/-- JavaScript whitespace as used by trim and the regex class backslash-s
(ASCII fragment; the trade strings are ASCII). -/
def isWS (c : Char) : Bool :=
  c = ' ' || c = '\t' || c = '\n' || c = '\r' || c = '\x0b' || c = '\x0c'

/-- JavaScript word character (regex class backslash-w), used by the
word-boundary assertion. -/
def isWordChar (c : Char) : Bool :=
  ('a' ≤ c && c ≤ 'z') || ('A' ≤ c && c ≤ 'Z') || ('0' ≤ c && c ≤ '9') || c = '_'

/-- The class [A-Z] under the i flag. -/
def isAlphaCI (c : Char) : Bool :=
  ('A' ≤ c.toUpper && c.toUpper ≤ 'Z')

/-- The class [A-Z0-9] under the i flag. -/
def isAlnumCI (c : Char) : Bool :=
  isAlphaCI c || c.isDigit

/-- String.prototype.trim. -/
def jsTrim (l : List Char) : List Char :=
  ((l.dropWhile isWS).reverse.dropWhile isWS).reverse

/-- replace(backslash-escaped + or -, bare sign), the global
backslash-normalization of parseThinkorswimTrade (source line 74). -/
def normBS : List Char → List Char
  | [] => []
  | '\\' :: c :: rest =>
      if c = '+' || c = '-' then c :: normBS rest else '\\' :: normBS (c :: rest)
  | c :: rest => c :: normBS rest

/-! ### A backtracking regex matcher with JavaScript semantics -/

/-- Regex abstract syntax.  alt is ordered (left first), star / opt are
greedy, wb is the word-boundary assertion, grp n is capture group n. -/
inductive RE : Type where
  | eps : RE
  | one : (Char → Bool) → RE
  | seq : RE → RE → RE
  | alt : RE → RE → RE
  | opt : RE → RE
  | star : RE → RE
  | wb : RE
  | grp : Nat → RE → RE

/-- Captures: (group index, start, end) triples, most recent first. -/
abbrev Caps := List (Nat × Nat × Nat)

/-- Is position i a word boundary of s (JavaScript backslash-b)? -/
def atWordBoundary (s : List Char) (i : Nat) : Bool :=
  let here := match s.get? i with
    | some c => isWordChar c
    | none => false
  let before := if i = 0 then false else
    match s.get? (i - 1) with
    | some c => isWordChar c
    | none => false
  before != here

/-- Backtracking matcher in continuation style.  reRun fuel re s i caps k
explores the match alternatives of re at position i of s in JavaScript
priority order, calling the continuation k on each candidate end position
until one succeeds.  A star iteration must consume at least one character
(JavaScript stops repeating a quantified group once it matches empty).
Recursion is structural on fuel; fuel only limits the depth of the
exploration and the entry points below always supply enough. -/
def reRun : Nat → RE → List Char → Nat → Caps →
    (Nat → Caps → Option (Nat × Caps)) → Option (Nat × Caps)
  | 0, _, _, _, _, _ => none
  | fuel + 1, re, s, i, caps, k =>
    match re with
    | RE.eps => k i caps
    | RE.one p =>
        match s.get? i with
        | some c => if p c then k (i + 1) caps else none
        | none => none
    | RE.seq a b => reRun fuel a s i caps fun j c => reRun fuel b s j c k
    | RE.alt a b => reRun fuel a s i caps k <|> reRun fuel b s i caps k
    | RE.opt a => reRun fuel a s i caps k <|> k i caps
    | RE.star a =>
        (reRun fuel a s i caps fun j c =>
          if i < j then reRun fuel (RE.star a) s j c k else none) <|> k i caps
    | RE.wb => if atWordBoundary s i then k i caps else none
    | RE.grp n a => reRun fuel a s i caps fun j c => k j ((n, i, j) :: c)

/-- Fuel that is always sufficient: every star iteration consumes a
character and every pattern of this file is far smaller than 400 nodes. -/
def bigFuel (s : List Char) : Nat := 400 + 4 * s.length

/-- Try to match re at exactly position i (no search). -/
def reMatchAt (re : RE) (s : List Char) (i : Nat) : Option (Nat × Caps) :=
  reRun (bigFuel s) re s i [] fun j c => some (j, c)

/-- Search forward from position i, n attempts, for the leftmost match;
returns (start, end, captures).  This is the JavaScript match / search
behaviour for a non-anchored pattern. -/
def reFirstFrom : Nat → RE → List Char → Nat → Option (Nat × Nat × Caps)
  | 0, _, _, _ => none
  | n + 1, re, s, i =>
    match reMatchAt re s i with
    | some (j, c) => some (i, j, c)
    | none => reFirstFrom n re s (i + 1)

/-- Leftmost match of re in s (JavaScript String.prototype.match without
the g flag, and String.prototype.search for the start index). -/
def reFirst (re : RE) (s : List Char) : Option (Nat × Nat × Caps) :=
  reFirstFrom (s.length + 1) re s 0

/-- RegExp.prototype.test. -/
def reTest (re : RE) (s : List Char) : Bool :=
  (reFirst re s).isSome

/-- All matches in order (JavaScript exec loop with the g flag; lastIndex
advances past each match, one extra step on an empty match). -/
def reAllFrom : Nat → RE → List Char → Nat → List (Nat × Nat × Caps)
  | 0, _, _, _ => []
  | n + 1, re, s, i =>
    match reFirstFrom (s.length + 1) re s i with
    | some (st, en, c) =>
        (st, en, c) :: reAllFrom n re s (if st < en then en else en + 1)
    | none => []

/-- All matches of re in s, leftmost first. -/
def reAll (re : RE) (s : List Char) : List (Nat × Nat × Caps) :=
  reAllFrom (s.length + 1) re s 0

/-- Content of capture group n (most recent occurrence wins, as in
JavaScript where a later iteration overwrites the group). -/
def capStr (s : List Char) (caps : Caps) (n : Nat) : List Char :=
  match caps.find? fun e => e.1 = n with
  | some e => (s.drop e.2.1).take (e.2.2 - e.2.1)
  | none => []

/-! ### Regex combinator shorthands -/

/-- Single literal character (case-sensitive; used for punctuation). -/
def chC (c : Char) : RE := RE.one fun x => x = c

/-- Character predicate. -/
def chP (p : Char → Bool) : RE := RE.one p

/-- Sequence of a list of regexes. -/
def seqL (l : List RE) : RE := l.foldr RE.seq RE.eps

/-- A regex that never matches (empty alternation). -/
def reNever : RE := RE.one fun _ => false

/-- Ordered alternation of a list of regexes. -/
def altL (l : List RE) : RE :=
  match l with
  | [] => reNever
  | [a] => a
  | a :: rest => RE.alt a (altL rest)

/-- Case-insensitive literal (the i flag). -/
def litI (t : String) : RE :=
  seqL (t.data.map fun c => RE.one fun x => x.toUpper = c.toUpper)

/-- One or more (greedy +). -/
def rePlus (a : RE) : RE := RE.seq a (RE.star a)

/-- Exactly n repetitions. -/
def reTimes (a : RE) : Nat → RE
  | 0 => RE.eps
  | n + 1 => RE.seq a (reTimes a n)

/-- At most n repetitions, greedy. -/
def reUpTo (a : RE) : Nat → RE
  | 0 => RE.eps
  | n + 1 => RE.opt (RE.seq a (reUpTo a n))

/-- Between lo and hi repetitions, greedy (the quantifier with braces). -/
def reRange (a : RE) (lo hi : Nat) : RE :=
  RE.seq (reTimes a lo) (reUpTo a (hi - lo))

/-- Whitespace, one or more. -/
def wsPlus : RE := rePlus (chP isWS)

/-- A digit. -/
def reDigit : RE := chP Char.isDigit

/-- Digits, one or more. -/
def digitsPlus : RE := rePlus reDigit

/-- An optional sign from the class with + and -. -/
def signOpt : RE := RE.opt (chP fun c => c = '+' || c = '-')

/-! ### JavaScript number parsing (the fragments the parser relies on) -/

/-- Numeric value of a digit list. -/
def digitsVal (ds : List Char) : Nat :=
  ds.foldl (fun acc c => acc * 10 + (c.toNat - 48)) 0

/-- parseInt(s, 10): optional leading whitespace and sign, then a digit
prefix; none models NaN (no digits). -/
def jsParseInt (cs : List Char) : Option Int :=
  let cs := cs.dropWhile isWS
  let core : List Char → Option Nat := fun l =>
    let ds := l.takeWhile Char.isDigit
    if ds.isEmpty then none else some (digitsVal ds)
  match cs with
  | '+' :: rest => (core rest).map fun n => (n : Int)
  | '-' :: rest => (core rest).map fun n => -(n : Int)
  | rest => (core rest).map fun n => (n : Int)

/-- parseFloat: optional whitespace and sign, integer digits, optional
dot and fraction digits; trailing junk is ignored; none models NaN. -/
def jsParseFloat (cs : List Char) : Option Rat :=
  let cs := cs.dropWhile isWS
  let signed : Int × List Char :=
    match cs with
    | '+' :: rest => (1, rest)
    | '-' :: rest => (-1, rest)
    | rest => (1, rest)
  let ip := signed.2.takeWhile Char.isDigit
  let rest2 := signed.2.drop ip.length
  let fp :=
    match rest2 with
    | '.' :: r => r.takeWhile Char.isDigit
    | _ => []
  if ip.isEmpty && fp.isEmpty then none
  else
    some (mkRat
      (signed.1 * ((digitsVal ip * 10 ^ fp.length + digitsVal fp : Nat) : Int))
      (10 ^ fp.length))

/-- String.prototype.split on a single separator character. -/
def splitOnChar (sep : Char) : List Char → List (List Char)
  | [] => [[]]
  | c :: rest =>
    let r := splitOnChar sep rest
    if c = sep then [] :: r
    else
      match r with
      | h :: t => (c :: h) :: t
      | [] => [[c]]

/-- Is needle a prefix of hay? -/
def isPrefixList : List Char → List Char → Bool
  | [], _ => true
  | _ :: _, [] => false
  | a :: as, b :: bs => a = b && isPrefixList as bs

/-- String.prototype.includes (substring containment). -/
def hasSub : List Char → List Char → Bool
  | hay, needle =>
    match hay with
    | [] => needle.isEmpty
    | _ :: rest => isPrefixList needle hay || hasSub rest needle

/-! ### parseDate and the month table (source lines 11-37) -/

/-- The fixed 12-entry MONTHS table (source lines 11-14); the key is the
already-uppercased 3-letter abbreviation. -/
def monthNum (cs : List Char) : Option Nat :=
  if cs = ['J', 'A', 'N'] then some 0
  else if cs = ['F', 'E', 'B'] then some 1
  else if cs = ['M', 'A', 'R'] then some 2
  else if cs = ['A', 'P', 'R'] then some 3
  else if cs = ['M', 'A', 'Y'] then some 4
  else if cs = ['J', 'U', 'N'] then some 5
  else if cs = ['J', 'U', 'L'] then some 6
  else if cs = ['A', 'U', 'G'] then some 7
  else if cs = ['S', 'E', 'P'] then some 8
  else if cs = ['O', 'C', 'T'] then some 9
  else if cs = ['N', 'O', 'V'] then some 10
  else if cs = ['D', 'E', 'C'] then some 11
  else none

/-- parseDate (source lines 20-37): unknown month or non-numeric day or
year gives null; a two-digit year is shifted into the 2000s. -/
def parseDate (day month year : List Char) : Option JSDate :=
  match monthNum (month.map Char.toUpper) with
  | none => none
  | some m =>
    match jsParseInt year with
    | none => none
    | some y =>
      let y := if y < 100 then y + 2000 else y
      match jsParseInt day with
      | none => none
      | some d => some { year := y, month := m, day := d }

/-! ### The regex literals of parseThinkorswimTrade, transliterated -/

/-- Source line 68: the action search pattern (word boundary, BUY or
SELL, whitespace), used with String.prototype.search. -/
def reActionSearch : RE :=
  seqL [RE.wb, RE.grp 1 (RE.alt (litI "BUY") (litI "SELL")), wsPlus]

/-- Source line 77: the same alternation anchored at the start. -/
def reActionAnchor : RE :=
  seqL [RE.grp 1 (RE.alt (litI "BUY") (litI "SELL")), wsPlus]

/-- Source line 82: quantity after a BUY or SELL occurrence. -/
def reQty : RE :=
  seqL [RE.alt (litI "BUY") (litI "SELL"), wsPlus,
    RE.grp 1 (RE.seq signOpt digitsPlus)]

/-- A 1-2 digit integer with an optional minus sign (ratio entry). -/
def ratioNum : RE := RE.seq (RE.opt (chC '-')) (reRange reDigit 1 2)

/-- Source line 90: the ratio array between the quantity and one of the
keywords CUSTOM, BACKRATIO, RATIO, BUTTERFLY, FLY (optionally tilded). -/
def reRatioArr : RE :=
  seqL [RE.alt (litI "BUY") (litI "SELL"), wsPlus, signOpt, digitsPlus, wsPlus,
    RE.grp 1 (seqL [ratioNum, chC '/', ratioNum,
      RE.star (RE.seq (chC '/') ratioNum)]),
    wsPlus, RE.opt (chC '~'),
    altL [litI "CUSTOM", litI "BACKRATIO", litI "RATIO", litI "BUTTERFLY",
      litI "FLY"]]

/-- Source line 94: the price after the at-sign, optionally negative. -/
def rePrice : RE :=
  RE.seq (chC '@')
    (RE.grp 1 (seqL [RE.opt (chC '-'), RE.star reDigit, RE.opt (chC '.'),
      digitsPlus]))

/-- Source line 99: the standalone GTC token. -/
def reGTC : RE := seqL [RE.wb, litI "GTC", RE.wb]

/-- Source line 103: the standalone MKT token. -/
def reMKT : RE := seqL [RE.wb, litI "MKT", RE.wb]

/-- Source line 104: the standalone STP LMT token pair. -/
def reSTPLMT : RE := seqL [RE.wb, litI "STP LMT", RE.wb]

/-- Source line 105: the standalone STP token. -/
def reSTPOnly : RE := seqL [RE.wb, litI "STP", RE.wb]

/-- Source line 108: the parenthesized weekly marker. -/
def reWeeklyPat : RE :=
  seqL [chC '(', litI "WEEKLY", RE.opt (litI "S"), chC ')']

/-- The date shape used inside the multiplier patterns: 1-2 digit day,
3 letters, 2 digit year. -/
def dateShape : RE :=
  seqL [reRange reDigit 1 2, wsPlus, reTimes (chP isAlphaCI) 3, wsPlus,
    reTimes reDigit 2]

/-- Source line 114: the futures multiplier N/M before a date. -/
def reFutMult : RE :=
  seqL [RE.wb, RE.grp 1 digitsPlus, chC '/', RE.grp 2 digitsPlus, wsPlus,
    dateShape]

/-- Source line 118: the equity multiplier before an optional weekly
marker and a date. -/
def reEqMult : RE :=
  seqL [RE.wb, RE.grp 1 digitsPlus, wsPlus,
    RE.opt (RE.seq reWeeklyPat wsPlus), dateShape]

/-- Source line 132: the symbol subpattern - a slash-led futures symbol
or 1-5 letters - as capture group 1. -/
def symbolSub : RE :=
  RE.grp 1 (RE.alt
    (seqL [chC '/', rePlus (chP isAlphaCI), RE.star (chP isAlnumCI)])
    (reRange (chP isAlphaCI) 1 5))

/-- Source line 138, symbol pattern 1: spread keyword, symbol,
multiplier-like integer. -/
def reSym1 : RE :=
  seqL [RE.opt (chC '~'),
    altL [litI "CUSTOM", litI "VERT", litI "VERTICAL", litI "CALENDAR",
      litI "DIAGONAL", litI "BUTTERFLY", litI "FLY", litI "CONDOR",
      litI "STRADDLE", litI "STRANGLE", litI "BACKRATIO", litI "RATIO",
      litI "ROLL"],
    wsPlus, symbolSub, wsPlus, digitsPlus]

/-- The ratio block of symbol pattern 2: digits, slash, digits or
slashes. -/
def ratioBlk : RE :=
  seqL [digitsPlus, chC '/', rePlus (chP fun c => c.isDigit || c = '/')]

/-- Source line 140, symbol pattern 2: quantity, optional ratio block,
spread keyword, optional ROLL, symbol, integer. -/
def reSym2 : RE :=
  seqL [signOpt, digitsPlus, wsPlus, RE.opt (RE.seq ratioBlk wsPlus),
    RE.opt (chC '~'),
    altL [RE.seq (litI "VERT") (RE.opt (litI "ICAL")), litI "CALENDAR",
      litI "DIAGONAL", litI "BUTTERFLY", litI "FLY", litI "CONDOR",
      litI "IC", litI "STRADDLE", litI "STRANGLE", litI "BACKRATIO",
      litI "RATIO"],
    wsPlus, RE.opt (RE.seq (litI "ROLL") wsPlus), symbolSub, wsPlus,
    digitsPlus]

/-- Source line 142, symbol pattern 3: ROLL, symbol, integer. -/
def reSym3 : RE := seqL [litI "ROLL", wsPlus, symbolSub, wsPlus, digitsPlus]

/-- Source line 144, symbol pattern 4: action, quantity, symbol,
integer. -/
def reSym4 : RE :=
  seqL [RE.alt (litI "BUY") (litI "SELL"), wsPlus, signOpt, digitsPlus,
    wsPlus, symbolSub, wsPlus, digitsPlus]

/-- Source line 157, the symbol fallback: quantity, optional ratio-like
block of non-spaces, optional CUSTOM, symbol, integer. -/
def reSymFallback : RE :=
  seqL [signOpt, digitsPlus, wsPlus,
    RE.opt (RE.seq (seqL [digitsPlus, chC '/',
      rePlus (chP fun c => !isWS c)]) wsPlus),
    RE.opt (RE.seq (litI "CUSTOM") wsPlus), symbolSub, wsPlus, digitsPlus]

/-- Source line 167: the global date pattern with three capture groups. -/
def reDatePat : RE :=
  seqL [RE.grp 1 (reRange reDigit 1 2), wsPlus,
    RE.grp 2 (reTimes (chP isAlphaCI) 3), wsPlus,
    RE.grp 3 (reTimes reDigit 2)]

/-- Digits and dots, one or more (one strike). -/
def strikeChars : RE := rePlus (chP fun c => c.isDigit || c = '.')

/-- Source line 180: strikes after the last two year digits, an optional
AM / PM tag, and before CALL or PUT. -/
def reStrikesPat : RE :=
  seqL [reTimes reDigit 2,
    RE.opt (seqL [wsPlus, chC '[', RE.alt (litI "AM") (litI "PM"), chC ']']),
    wsPlus,
    RE.grp 1 (RE.seq strikeChars (RE.star (RE.seq (chC '/') strikeChars))),
    wsPlus, RE.alt (litI "CALL") (litI "PUT")]

/-- Source line 186: the slash-joined CALL / PUT group. -/
def reOptTypesPat : RE :=
  RE.grp 1 (RE.seq (RE.alt (litI "CALL") (litI "PUT"))
    (RE.star (RE.seq (chC '/') (RE.alt (litI "CALL") (litI "PUT")))))

/-! ### Field extraction (parseThinkorswimTrade, source lines 62-196) -/

/-- Source lines 64-71: trim, then strip everything before the first
BUY / SELL token occurrence (only when that occurrence starts after
position 0; search returning -1 leaves the string alone). -/
def rawOf (input : String) : List Char :=
  let raw0 := jsTrim input.data
  match reFirst reActionSearch raw0 with
  | some (st, _, _) => if 0 < st then raw0.drop st else raw0
  | none => raw0

/-- Source line 74: the backslash-normalized string all later regexes
run on. -/
def normalizedOf (input : String) : List Char := normBS (rawOf input)

/-- Source lines 77-79: the action, from the anchored match at position
0 of the normalized string. -/
def actionOf (n : List Char) : Option TradeAction :=
  match reMatchAt reActionAnchor n 0 with
  | some (_, caps) =>
      if (capStr n caps 1).map Char.toUpper = ['B', 'U', 'Y']
      then some TradeAction.BUY else some TradeAction.SELL
  | none => none

/-- Source lines 82-84: Math.abs of the parsed quantity capture. -/
def qtyOf (n : List Char) : Option Nat :=
  (reFirst reQty n).map fun m => ((jsParseInt (capStr n m.2.2 1)).getD 0).natAbs

/-- Source lines 90-91: the optional ratio array, split on slashes and
parsed as base-10 integers. -/
def ratiosOf (n : List Char) : Option (List Int) :=
  (reFirst reRatioArr n).map fun m =>
    (splitOnChar '/' (capStr n m.2.2 1)).map fun seg => (jsParseInt seg).getD 0

/-- Source lines 94-96: the price. -/
def priceOf (n : List Char) : Option Rat :=
  (reFirst rePrice n).map fun m => (jsParseFloat (capStr n m.2.2 1)).getD 0

/-- Source line 99: the GTC flag. -/
def isGTCOf (n : List Char) : Bool := reTest reGTC n

/-- Source lines 102-105: the order type, MKT before STP LMT before STP,
default LMT. -/
def orderTypeOf (n : List Char) : OrderType :=
  if reTest reMKT n then OrderType.MKT
  else if reTest reSTPLMT n then OrderType.STP_LMT
  else if reTest reSTPOnly n then OrderType.STP
  else OrderType.LMT

/-- Source line 108: the weekly flag. -/
def isWeeklyOf (n : List Char) : Bool := reTest reWeeklyPat n

/-- Source lines 113-122: futures divisor if present, else the equity
multiplier before a date, else 100. -/
def multiplierOf (n : List Char) : Int :=
  match reFirst reFutMult n with
  | some m => (jsParseInt (capStr n m.2.2 2)).getD 0
  | none =>
    match reFirst reEqMult n with
    | some m => (jsParseInt (capStr n m.2.2 1)).getD 0
    | none => 100

/-- Source lines 136-163: the four ordered symbol patterns, then the
fallback pattern; the first match wins and is uppercased. -/
def symbolOf (n : List Char) : Option (List Char) :=
  let tryPat : RE → Option (List Char) := fun re =>
    (reFirst re n).map fun m => (capStr n m.2.2 1).map Char.toUpper
  match tryPat reSym1 with
  | some s => some s
  | none =>
    match tryPat reSym2 with
    | some s => some s
    | none =>
      match tryPat reSym3 with
      | some s => some s
      | none =>
        match tryPat reSym4 with
        | some s => some s
        | none => tryPat reSymFallback

/-- Source lines 167-175: every date-shaped token in order; tokens whose
parseDate is null are skipped. -/
def datesOf (n : List Char) : List JSDate :=
  (reAll reDatePat n).filterMap fun m =>
    parseDate (capStr n m.2.2 1) (capStr n m.2.2 2) (capStr n m.2.2 3)

/-- Source lines 180-183: the slash-joined strikes (none models a NaN
entry from parseFloat). -/
def strikesOf (n : List Char) : List (Option Rat) :=
  match reFirst reStrikesPat n with
  | some m => (splitOnChar '/' (capStr n m.2.2 1)).map jsParseFloat
  | none => []

/-- Source lines 186-189: the slash-joined option types. -/
def optionTypesOf (n : List Char) : List OptionType :=
  match reFirst reOptTypesPat n with
  | some m =>
      (splitOnChar '/' (capStr n m.2.2 1)).map fun seg =>
        if seg.map Char.toUpper = ['C', 'A', 'L', 'L']
        then OptionType.CALL else OptionType.PUT
  | none => []

/-- The expression with which ratios feed the leg count: a present ratio
array contributes its length unless that is 0 (JavaScript falsiness),
absent contributes 1 (source lines 192 and 196). -/
def jsRatioLen (r : Option (List Int)) : Nat :=
  match r with
  | some l => if l.length = 0 then 1 else l.length
  | none => 1

/-- Source lines 192 and 196: Math.max over the four array lengths. -/
def legCountOf (input : String) : Nat :=
  let n := normalizedOf input
  max (max (datesOf n).length (strikesOf n).length)
    (max (optionTypesOf n).length (jsRatioLen (ratiosOf n)))

/-! ### detectSpreadType (source lines 39-60) -/

/-- detectSpreadType: ordered substring search over the uppercased input
(String.prototype.includes), then the leg-count fallback.  The IRON
CONDOR / IC line is reproduced verbatim from the source even though any
string containing IRON CONDOR already contains CONDOR. -/
def detectSpreadType (input : List Char) (legCount : Nat) : SpreadType :=
  let u := input.map Char.toUpper
  if hasSub u "ROLL".data then SpreadType.ROLL
  else if hasSub u "CALENDAR".data then SpreadType.CALENDAR
  else if hasSub u "DIAGONAL".data then SpreadType.DIAGONAL
  else if hasSub u "VERT".data then SpreadType.VERTICAL
  else if hasSub u "BUTTERFLY".data || hasSub u "FLY".data then
    SpreadType.BUTTERFLY
  else if hasSub u "CONDOR".data then SpreadType.CONDOR
  else if hasSub u "IRON CONDOR".data || hasSub u "IC".data then
    SpreadType.IRON_CONDOR
  else if hasSub u "STRADDLE".data then SpreadType.STRADDLE
  else if hasSub u "STRANGLE".data then SpreadType.STRANGLE
  else if hasSub u "CUSTOM".data then SpreadType.CUSTOM
  else if hasSub u "BACKRATIO".data then SpreadType.BACKRATIO
  else if hasSub u "RATIO".data then SpreadType.RATIO
  else if legCount = 1 then SpreadType.SINGLE
  else if legCount = 2 then SpreadType.VERTICAL
  else if legCount = 4 then SpreadType.IRON_CONDOR
  else SpreadType.CUSTOM

/-- Does the keyword-search half of detectSpreadType fire at all?  True
exactly when detectSpreadType returns before its leg-count fallback. -/
def hasSpreadKeyword (input : List Char) : Bool :=
  let u := input.map Char.toUpper
  hasSub u "ROLL".data || hasSub u "CALENDAR".data || hasSub u "DIAGONAL".data
    || hasSub u "VERT".data || hasSub u "BUTTERFLY".data || hasSub u "FLY".data
    || hasSub u "CONDOR".data || hasSub u "IRON CONDOR".data
    || hasSub u "IC".data || hasSub u "STRADDLE".data
    || hasSub u "STRANGLE".data || hasSub u "CUSTOM".data
    || hasSub u "BACKRATIO".data || hasSub u "RATIO".data

/-- The leg-count fallback of detectSpreadType (source lines 55-59). -/
def fallbackSpreadType (legCount : Nat) : SpreadType :=
  if legCount = 1 then SpreadType.SINGLE
  else if legCount = 2 then SpreadType.VERTICAL
  else if legCount = 4 then SpreadType.IRON_CONDOR
  else SpreadType.CUSTOM

/-! ### Per-leg inference (source lines 198-307) -/

/-- actionSign (source line 200). -/
def actionSign : TradeAction → Int
  | TradeAction.BUY => 1
  | TradeAction.SELL => -1

/-- The per-leg quantity factor before scaling by totalQuantity (source
lines 202-274), with the branches in source order: ratio present
(explicit signs, BACKRATIO, BUTTERFLY, other), then CALENDAR / DIAGONAL,
ROLL, 3-leg BUTTERFLY, 2-leg VERTICAL, and the default actionSign. -/
def legQty (spreadType : SpreadType) (action : TradeAction)
    (ratios : Option (List Int)) (legCount i : Nat) : Int :=
  match ratios with
  | some rs =>
    let r := rs.getD (i % rs.length) 0
    if rs.any fun x => x < 0 then r * actionSign action
    else if spreadType = SpreadType.BACKRATIO then
      (if i = 0 then -r else r) * actionSign action
    else if spreadType = SpreadType.BUTTERFLY then
      let isWing := i = 0 || i = rs.length - 1
      if action = TradeAction.BUY then (if isWing then r else -r)
      else (if isWing then -r else r)
    else r * actionSign action
  | none =>
    if spreadType = SpreadType.CALENDAR ∨ spreadType = SpreadType.DIAGONAL then
      if action = TradeAction.SELL then (if i = 0 then -1 else 1)
      else (if i = 0 then 1 else -1)
    else if spreadType = SpreadType.ROLL then
      (if action = TradeAction.SELL then ([-1, 1, 1, -1] : List Int)
       else [1, -1, -1, 1]).getD (i % 4) 0
    else if spreadType = SpreadType.BUTTERFLY ∧ legCount = 3 then
      let isWing := i = 0 || i = 2
      if action = TradeAction.BUY then (if isWing then 1 else -2)
      else (if isWing then -1 else 2)
    else if spreadType = SpreadType.VERTICAL ∧ legCount = 2 then
      if action = TradeAction.BUY then (if i = 0 then 1 else -1)
      else (if i = 0 then -1 else 1)
    else actionSign action

/-- The per-leg expiration (source lines 277-285): the wall clock when no
dates parsed; the far date for the first two legs and the near date for
the rest of a 4-leg two-date ROLL; otherwise cyclic. -/
def legExpiration (spreadType : SpreadType) (dates : List JSDate)
    (legCount i : Nat) (now : JSDate) : JSDate :=
  if dates.length = 0 then now
  else if spreadType = SpreadType.ROLL ∧ dates.length = 2 ∧ legCount = 4 then
    (if i < 2 then dates.getD 0 now else dates.getD 1 now)
  else dates.getD (i % dates.length) now

/-- The per-leg open / close tag (source lines 288-298). -/
def legActionOf (spreadType : SpreadType) (action : TradeAction) (i : Nat) :
    Option LegAction :=
  if spreadType = SpreadType.ROLL then
    some (if i < 2 then LegAction.OPEN else LegAction.CLOSE)
  else if spreadType = SpreadType.CALENDAR ∨ spreadType = SpreadType.DIAGONAL
  then
    if action = TradeAction.SELL then
      some (if i = 0 then LegAction.OPEN else LegAction.CLOSE)
    else none
  else none

/-- The per-leg strike (source line 303): strikes at i mod length, then
strikes at 0, then 0, where both a missing entry and the falsy values 0
and NaN fall through (none models NaN). -/
def legStrike (strikes : List (Option Rat)) (i : Nat) : Rat :=
  let pick : Option (Option Rat) → Option Rat := fun x =>
    match x with
    | some (some v) => if v = 0 then none else some v
    | _ => none
  ((pick (strikes.get? (i % strikes.length))).orElse
    fun _ => pick (strikes.get? 0)).getD 0

/-- The per-leg option type (source line 304): cyclic, then the first
entry, then CALL (non-empty strings are truthy, so only missing entries
fall through). -/
def legOptType (types : List OptionType) (i : Nat) : OptionType :=
  (types.get? (i % types.length)).getD ((types.get? 0).getD OptionType.CALL)

/-- One leg of the loop body (source lines 300-306). -/
def mkLeg (spreadType : SpreadType) (action : TradeAction)
    (ratios : Option (List Int)) (tq : Nat) (dates : List JSDate)
    (strikes : List (Option Rat)) (types : List OptionType) (now : JSDate)
    (legCount i : Nat) : OptionLeg :=
  { quantity := legQty spreadType action ratios legCount i * (tq : Int)
    expiration := legExpiration spreadType dates legCount i now
    strike := legStrike strikes i
    optionType := legOptType types i
    legAction := legActionOf spreadType action i }

/-- The leg-building loop (source lines 195-307). -/
def buildLegs (spreadType : SpreadType) (action : TradeAction)
    (ratios : Option (List Int)) (tq : Nat) (dates : List JSDate)
    (strikes : List (Option Rat)) (types : List OptionType) (now : JSDate)
    (legCount : Nat) : List OptionLeg :=
  (List.range legCount).map
    (mkLeg spreadType action ratios tq dates strikes types now legCount)

/-- The Trade record returned on success (source lines 309-323). -/
def assembleTrade (id : String) (now : JSDate) (input : String)
    (action : TradeAction) (tq : Nat) (price : Rat) (symbol : List Char) :
    Trade :=
  { id := id
    rawInput := String.mk (rawOf input)
    action := action
    totalQuantity := tq
    symbol := String.mk symbol
    multiplier := multiplierOf (normalizedOf input)
    isWeekly := isWeeklyOf (normalizedOf input)
    spreadType := detectSpreadType (normalizedOf input) (legCountOf input)
    legs := buildLegs (detectSpreadType (normalizedOf input) (legCountOf input))
      action (ratiosOf (normalizedOf input)) tq (datesOf (normalizedOf input))
      (strikesOf (normalizedOf input)) (optionTypesOf (normalizedOf input))
      now (legCountOf input)
    price := price
    orderType := orderTypeOf (normalizedOf input)
    isGTC := isGTCOf (normalizedOf input)
    tradeDate := now }

/-- parseThinkorswimTrade (source lines 62-328).  The ambient effects are
parameters: id stands for generateId() and now for the new Date() calls.
The early returns of the source appear as the none branches, in source
order: empty input, no action, no quantity, no price, no symbol.  No
modelled operation can throw, so the catch-all of the source (lines
324-327) has no counterpart. -/
def parseThinkorswimTrade (id : String) (now : JSDate) (input : String) :
    Option Trade :=
  if (jsTrim input.data).isEmpty then none
  else
    match actionOf (normalizedOf input) with
    | none => none
    | some action =>
      match qtyOf (normalizedOf input) with
      | none => none
      | some tq =>
        match priceOf (normalizedOf input) with
        | none => none
        | some price =>
          match symbolOf (normalizedOf input) with
          | none => none
          | some symbol => some (assembleTrade id now input action tq price symbol)

/-! ### Concrete inputs and their parses, used by the theorems below -/

/-- A fixed parse-time date standing for new Date(). -/
def dateT0 : JSDate := ⟨2026, 0, 1⟩

/-- A second parse-time date, for comparing two parse invocations. -/
def dateT1 : JSDate := ⟨2026, 0, 2⟩

/-- A throwaway leg for getD. -/
def dummyLeg : OptionLeg := ⟨0, ⟨0, 0, 0⟩, 0, OptionType.CALL, none⟩

/-- The BACKRATIO fixture of the repository test set. -/
def amznStr : String :=
  "SELL -2 1/3 BACKRATIO AMZN 100 16 JAN 26 247.5/260 CALL @-1.49 LMT"

/-- The parse of amznStr at id t and date dateT0. -/
def amznTrade : Trade :=
  { id := "t"
    rawInput := amznStr
    action := TradeAction.SELL
    totalQuantity := 2
    symbol := "AMZN"
    multiplier := 100
    isWeekly := false
    spreadType := SpreadType.BACKRATIO
    legs := [⟨2, ⟨2026, 0, 16⟩, mkRat 495 2, OptionType.CALL, none⟩,
             ⟨-6, ⟨2026, 0, 16⟩, mkRat 260 1, OptionType.CALL, none⟩]
    price := mkRat (-149) 100
    orderType := OrderType.LMT
    isGTC := false
    tradeDate := dateT0 }

/-- The CALENDAR fixture of the repository test set. -/
def shopStr : String :=
  "SELL -4 CALENDAR SHOP 100 (Weeklys) 13 FEB 26/16 JAN 26 160 PUT @6.75 LMT"

/-- The parse of shopStr at id t and date dateT0. -/
def shopTrade : Trade :=
  { id := "t"
    rawInput := shopStr
    action := TradeAction.SELL
    totalQuantity := 4
    symbol := "SHOP"
    multiplier := 100
    isWeekly := true
    spreadType := SpreadType.CALENDAR
    legs := [⟨-4, ⟨2026, 1, 13⟩, mkRat 160 1, OptionType.PUT,
               some LegAction.OPEN⟩,
             ⟨4, ⟨2026, 0, 16⟩, mkRat 160 1, OptionType.PUT,
               some LegAction.CLOSE⟩]
    price := mkRat 27 4
    orderType := OrderType.LMT
    isGTC := false
    tradeDate := dateT0 }

/-- A short ROLL input (same shape as the VERT ROLL fixture). -/
def rollStr : String := "SELL -1 ROLL AB 10 1 JAN 26/2 FEB 26 5/6/5/6 CALL @.1 LMT"

/-- The parse of rollStr at id t and date dateT0. -/
def rollTrade : Trade :=
  { id := "t"
    rawInput := rollStr
    action := TradeAction.SELL
    totalQuantity := 1
    symbol := "AB"
    multiplier := 10
    isWeekly := false
    spreadType := SpreadType.ROLL
    legs := [⟨-1, ⟨2026, 0, 1⟩, mkRat 5 1, OptionType.CALL,
               some LegAction.OPEN⟩,
             ⟨1, ⟨2026, 0, 1⟩, mkRat 6 1, OptionType.CALL,
               some LegAction.OPEN⟩,
             ⟨1, ⟨2026, 1, 2⟩, mkRat 5 1, OptionType.CALL,
               some LegAction.CLOSE⟩,
             ⟨-1, ⟨2026, 1, 2⟩, mkRat 6 1, OptionType.CALL,
               some LegAction.CLOSE⟩]
    price := mkRat 1 10
    orderType := OrderType.LMT
    isGTC := false
    tradeDate := dateT0 }

/-- A two-leg VERTICAL input. -/
def vertStr : String := "BUY +1 VERT AAPL 100 16 JAN 26 100/105 CALL @1.00 LMT"

/-- The parse of vertStr at id t and date dateT0. -/
def vertTrade : Trade :=
  { id := "t"
    rawInput := vertStr
    action := TradeAction.BUY
    totalQuantity := 1
    symbol := "AAPL"
    multiplier := 100
    isWeekly := false
    spreadType := SpreadType.VERTICAL
    legs := [⟨1, ⟨2026, 0, 16⟩, mkRat 100 1, OptionType.CALL, none⟩,
             ⟨-1, ⟨2026, 0, 16⟩, mkRat 105 1, OptionType.CALL, none⟩]
    price := mkRat 1 1
    orderType := OrderType.LMT
    isGTC := false
    tradeDate := dateT0 }

/-- The unknown-month input of the specification scenarios. -/
def xyzStr : String := "BUY +1 XYZ 100 5 XXX 26 50 CALL @1.00 LMT"

/-- A CALENDAR input with a single expiration, strike and type. -/
def cal1Str : String := "SELL -4 CALENDAR SHOP 100 13 FEB 26 160 PUT @6.75 LMT"

/-- The SINGLE fixture of the repository test set. -/
def beStr : String := "BUY +2 BE 100 15 JAN 27 50 CALL @52.60 LMT"

/-- The parse of beStr at id t and date dateT0. -/
def beTrade : Trade :=
  { id := "t"
    rawInput := beStr
    action := TradeAction.BUY
    totalQuantity := 2
    symbol := "BE"
    multiplier := 100
    isWeekly := false
    spreadType := SpreadType.SINGLE
    legs := [⟨2, ⟨2027, 0, 15⟩, mkRat 50 1, OptionType.CALL, none⟩]
    price := mkRat 263 5
    orderType := OrderType.LMT
    isGTC := false
    tradeDate := dateT0 }

/-- A symbol containing IC inside a longer word and no other keyword. -/
def iceStr : String := "BUY +2 ICE 100 15 JAN 27 50 CALL @52.60 LMT"

/-- An input whose only deviation from beStr is trailing whitespace and
the absence of date, strike and type tokens. -/
def trailStr : String := "BUY +2 BE 100 @52.60 "

/-- trailStr without the trailing blank. -/
def noDateStr : String := "BUY +2 BE 100 @52.60"

/-- noDateStr behind leading noise. -/
def zzStr : String := "ZZ BUY +2 BE 100 @52.60"

/-- The parse of zzStr at id t and date dateT0: the noise and the
surrounding whitespace are gone from rawInput. -/
def zzTrade : Trade :=
  { id := "t"
    rawInput := noDateStr
    action := TradeAction.BUY
    totalQuantity := 2
    symbol := "BE"
    multiplier := 100
    isWeekly := false
    spreadType := SpreadType.SINGLE
    legs := [⟨2, dateT0, 0, OptionType.CALL, none⟩]
    price := mkRat 263 5
    orderType := OrderType.LMT
    isGTC := false
    tradeDate := dateT0 }

/-- A short input with a real date, parsed at a parameterized date to
compare two invocations. -/
def aStr : String := "BUY +1 A 1 1 JAN 26 5 CALL @1 LMT"

/-- The parse of aStr at id t and an arbitrary parse date: only
tradeDate depends on the clock (the legs carry the parsed date). -/
def aTrade (d : JSDate) : Trade :=
  { id := "t"
    rawInput := aStr
    action := TradeAction.BUY
    totalQuantity := 1
    symbol := "A"
    multiplier := 1
    isWeekly := false
    spreadType := SpreadType.SINGLE
    legs := [⟨1, ⟨2026, 0, 1⟩, mkRat 5 1, OptionType.CALL, none⟩]
    price := mkRat 1 1
    orderType := OrderType.LMT
    isGTC := false
    tradeDate := d }

/-! ### Helper lemmas about the embedded parser -/

set_option synthInstance.maxSize 2000

/-- Inversion: a successful parse means every extraction succeeded and
the result is the assembled record of the extracted fields. -/
theorem parse_some_eq {id : String} {now : JSDate} {input : String}
    {t : Trade} (h : parseThinkorswimTrade id now input = some t) :
    ∃ action tq price symbol,
      actionOf (normalizedOf input) = some action ∧
      qtyOf (normalizedOf input) = some tq ∧
      priceOf (normalizedOf input) = some price ∧
      symbolOf (normalizedOf input) = some symbol ∧
      t = assembleTrade id now input action tq price symbol := by
  unfold parseThinkorswimTrade at h
  by_cases h0 : (jsTrim input.data).isEmpty
  · rw [if_pos h0] at h
    exact absurd h (by simp)
  · rw [if_neg h0] at h
    cases hA : actionOf (normalizedOf input) with
    | none => rw [hA] at h; exact absurd h (by simp)
    | some a =>
      rw [hA] at h
      cases hQ : qtyOf (normalizedOf input) with
      | none => rw [hQ] at h; exact absurd h (by simp)
      | some q =>
        rw [hQ] at h
        cases hP : priceOf (normalizedOf input) with
        | none => rw [hP] at h; exact absurd h (by simp)
        | some p =>
          rw [hP] at h
          cases hS : symbolOf (normalizedOf input) with
          | none => rw [hS] at h; exact absurd h (by simp)
          | some s =>
            rw [hS] at h
            exact ⟨a, q, p, s, rfl, rfl, rfl, rfl, (Option.some.inj h).symm⟩

/-- The legs of an assembled trade. -/
theorem assemble_legs (id : String) (now : JSDate) (input : String)
    (a : TradeAction) (q : Nat) (p : Rat) (s : List Char) :
    (assembleTrade id now input a q p s).legs =
      buildLegs (detectSpreadType (normalizedOf input) (legCountOf input)) a
        (ratiosOf (normalizedOf input)) q (datesOf (normalizedOf input))
        (strikesOf (normalizedOf input)) (optionTypesOf (normalizedOf input))
        now (legCountOf input) := by simp only [assembleTrade]

/-- The spread type of an assembled trade. -/
theorem assemble_spreadType (id : String) (now : JSDate) (input : String)
    (a : TradeAction) (q : Nat) (p : Rat) (s : List Char) :
    (assembleTrade id now input a q p s).spreadType =
      detectSpreadType (normalizedOf input) (legCountOf input) := by
  simp only [assembleTrade]

/-- The action of an assembled trade. -/
theorem assemble_action (id : String) (now : JSDate) (input : String)
    (a : TradeAction) (q : Nat) (p : Rat) (s : List Char) :
    (assembleTrade id now input a q p s).action = a := by
  simp only [assembleTrade]

/-- The total quantity of an assembled trade. -/
theorem assemble_totalQuantity (id : String) (now : JSDate) (input : String)
    (a : TradeAction) (q : Nat) (p : Rat) (s : List Char) :
    (assembleTrade id now input a q p s).totalQuantity = q := by
  simp only [assembleTrade]

/-- The raw input of an assembled trade. -/
theorem assemble_rawInput (id : String) (now : JSDate) (input : String)
    (a : TradeAction) (q : Nat) (p : Rat) (s : List Char) :
    (assembleTrade id now input a q p s).rawInput = String.mk (rawOf input) := by
  simp only [assembleTrade]

/-- How many legs the loop builds. -/
theorem buildLegs_length (st : SpreadType) (a : TradeAction)
    (r : Option (List Int)) (tq : Nat) (ds : List JSDate)
    (ss : List (Option Rat)) (ots : List OptionType) (now : JSDate)
    (lc : Nat) : (buildLegs st a r tq ds ss ots now lc).length = lc := by
  simp [buildLegs]

/-- Leg i of the loop, as mkLeg. -/
theorem buildLegs_getD (st : SpreadType) (a : TradeAction)
    (r : Option (List Int)) (tq : Nat) (ds : List JSDate)
    (ss : List (Option Rat)) (ots : List OptionType) (now : JSDate)
    {lc i : Nat} (hi : i < lc) :
    (buildLegs st a r tq ds ss ots now lc).getD i dummyLeg =
      mkLeg st a r tq ds ss ots now lc i := by
  simp [buildLegs, List.getD_eq_getElem?_getD, List.getElem?_map,
    List.getElem?_range, hi]

/-- C1: for every successfully parsed trade classified BACKRATIO whose
ratio array is present and contains no negative entry, leg 0 gets
quantity -ratio 0 times actionSign times totalQuantity and every other
in-range leg i gets +ratio i times actionSign times totalQuantity; and
the SELL -2 1/3 BACKRATIO AMZN fixture parses to symbol AMZN, spread
type BACKRATIO, price -1.49 and exactly the two leg quantities +2 and
-6. -/
theorem c1_backratio_leg_quantities :
    (∀ (id : String) (now : JSDate) (input : String) (t : Trade)
      (rs : List Int),
      parseThinkorswimTrade id now input = some t →
      t.spreadType = SpreadType.BACKRATIO →
      ratiosOf (normalizedOf input) = some rs →
      (∀ r ∈ rs, 0 ≤ r) →
      ∀ i, i < t.legs.length → i < rs.length →
        (t.legs.getD i dummyLeg).quantity =
          (if i = 0 then -(rs.getD i 0) else rs.getD i 0) *
            actionSign t.action * (t.totalQuantity : Int)) ∧
    (parseThinkorswimTrade "t" dateT0 amznStr).map
        (fun t => (t.symbol, t.spreadType, t.price,
          t.legs.map OptionLeg.quantity)) =
      some ("AMZN", SpreadType.BACKRATIO, mkRat (-149) 100, [2, -6]) := by
  constructor
  · intro id now input t rs hp hst hr hpos i hilen hirs
    obtain ⟨a, q, p, s, hA, hQ, hP, hS, ht⟩ := parse_some_eq hp
    subst ht
    rw [assemble_spreadType] at hst
    rw [assemble_legs] at hilen ⊢
    rw [buildLegs_length] at hilen
    rw [assemble_action, assemble_totalQuantity]
    rw [buildLegs_getD _ _ _ _ _ _ _ _ hilen]
    have hany : (rs.any fun x => x < 0) = false := by
      rw [List.any_eq_false]
      intro x hx
      simpa using not_lt.mpr (hpos x hx)
    simp only [mkLeg, legQty, hr, hany, hst, Nat.mod_eq_of_lt hirs]
    simp
  · decide

/-- Witness for C1: the general BACKRATIO rule instantiated at the AMZN
fixture and leg 1, whose quantity is 3 times -1 times 2 = -6. -/
theorem c1_backratio_leg_quantities_witness :
    parseThinkorswimTrade "t" dateT0 amznStr = some amznTrade ∧
    (amznTrade.legs.getD 1 dummyLeg).quantity =
      (if (1 : Nat) = 0 then -(([1, 3] : List Int).getD 1 0)
       else ([1, 3] : List Int).getD 1 0) *
        actionSign amznTrade.action * (amznTrade.totalQuantity : Int) :=
  have hp : parseThinkorswimTrade "t" dateT0 amznStr = some amznTrade := by
    decide
  ⟨hp, c1_backratio_leg_quantities.1 "t" dateT0 amznStr amznTrade [1, 3] hp
    (by decide) (by decide) (by decide) 1 (by decide) (by decide)⟩

/-- C2: every successfully parsed ROLL trade without a ratio array has
leg quantities following the cyclic pattern -1,+1,+1,-1 for SELL (the
negation for BUY) at index i mod 4 scaled by totalQuantity; with exactly
2 parsed dates and 4 legs, legs 0-1 carry the first (far) date and legs
2-3 the second (near) date; and legs 0-1 are tagged OPEN while legs from
index 2 on are tagged CLOSE. -/
theorem c2_roll_legs :
    ∀ (id : String) (now : JSDate) (input : String) (t : Trade),
      parseThinkorswimTrade id now input = some t →
      t.spreadType = SpreadType.ROLL →
      ratiosOf (normalizedOf input) = none →
      (∀ i, i < t.legs.length →
        (t.legs.getD i dummyLeg).quantity =
          ((if t.action = TradeAction.SELL then ([-1, 1, 1, -1] : List Int)
            else [1, -1, -1, 1]).getD (i % 4) 0) * (t.totalQuantity : Int)) ∧
      (∀ d1 d2, datesOf (normalizedOf input) = [d1, d2] →
        t.legs.length = 4 →
        ∀ i, i < t.legs.length →
          (t.legs.getD i dummyLeg).expiration = if i < 2 then d1 else d2) ∧
      (∀ i, i < t.legs.length →
        (t.legs.getD i dummyLeg).legAction =
          some (if i < 2 then LegAction.OPEN else LegAction.CLOSE)) := by
  intro id now input t hp hst hr
  obtain ⟨a, q, p, s, hA, hQ, hP, hS, ht⟩ := parse_some_eq hp
  subst ht
  rw [assemble_spreadType] at hst
  refine ⟨?_, ?_, ?_⟩
  · intro i hilen
    rw [assemble_legs] at hilen ⊢
    rw [buildLegs_length] at hilen
    rw [assemble_action, assemble_totalQuantity]
    rw [buildLegs_getD _ _ _ _ _ _ _ _ hilen]
    simp only [mkLeg, legQty, hr, hst]
    simp
  · intro d1 d2 hd h4 i hilen
    rw [assemble_legs] at hilen h4 ⊢
    rw [buildLegs_length] at hilen h4
    rw [h4] at hst
    rw [buildLegs_getD _ _ _ _ _ _ _ _ hilen]
    simp only [mkLeg, legExpiration, hd, h4, hst]
    by_cases hi2 : i < 2 <;> simp [hi2]
  · intro i hilen
    rw [assemble_legs] at hilen ⊢
    rw [buildLegs_length] at hilen
    rw [buildLegs_getD _ _ _ _ _ _ _ _ hilen]
    simp only [mkLeg, legActionOf, hst]
    simp

/-- Witness for C2: the rule instantiated at a concrete 4-leg SELL ROLL
with two dates, at leg index 3: quantity -1, near date, tag CLOSE. -/
theorem c2_roll_legs_witness :
    parseThinkorswimTrade "t" dateT0 rollStr = some rollTrade ∧
    (rollTrade.legs.getD 3 dummyLeg).quantity =
      ((if rollTrade.action = TradeAction.SELL then ([-1, 1, 1, -1] : List Int)
        else [1, -1, -1, 1]).getD (3 % 4) 0) * (rollTrade.totalQuantity : Int) ∧
    (rollTrade.legs.getD 3 dummyLeg).expiration =
      (if 3 < 2 then (⟨2026, 0, 1⟩ : JSDate) else ⟨2026, 1, 2⟩) ∧
    (rollTrade.legs.getD 3 dummyLeg).legAction =
      some (if 3 < 2 then LegAction.OPEN else LegAction.CLOSE) :=
  have hp : parseThinkorswimTrade "t" dateT0 rollStr = some rollTrade := by
    decide
  have h := c2_roll_legs "t" dateT0 rollStr rollTrade hp (by decide) (by decide)
  ⟨hp, h.1 3 (by decide),
    h.2.1 ⟨2026, 0, 1⟩ ⟨2026, 1, 2⟩ (by decide) (by decide) 3 (by decide),
    h.2.2 3 (by decide)⟩

/-- C3: every successfully parsed 2-leg CALENDAR or DIAGONAL trade
without a ratio array has, on SELL, leg 0 (far date) at quantity
-totalQuantity tagged OPEN and leg 1 (near date) at +totalQuantity
tagged CLOSE; on BUY the signs are reversed and both tags are absent.
The SELL -4 CALENDAR SHOP fixture parses to symbol SHOP, CALENDAR,
isWeekly true, with leg quantities -4 (OPEN) and +4 (CLOSE). -/
theorem c3_calendar_diagonal_legs :
    (∀ (id : String) (now : JSDate) (input : String) (t : Trade),
      parseThinkorswimTrade id now input = some t →
      t.spreadType = SpreadType.CALENDAR ∨ t.spreadType = SpreadType.DIAGONAL →
      ratiosOf (normalizedOf input) = none →
      t.legs.length = 2 →
      (t.action = TradeAction.SELL →
        (t.legs.getD 0 dummyLeg).quantity = -(t.totalQuantity : Int) ∧
        (t.legs.getD 0 dummyLeg).legAction = some LegAction.OPEN ∧
        (t.legs.getD 1 dummyLeg).quantity = (t.totalQuantity : Int) ∧
        (t.legs.getD 1 dummyLeg).legAction = some LegAction.CLOSE) ∧
      (t.action = TradeAction.BUY →
        (t.legs.getD 0 dummyLeg).quantity = (t.totalQuantity : Int) ∧
        (t.legs.getD 0 dummyLeg).legAction = none ∧
        (t.legs.getD 1 dummyLeg).quantity = -(t.totalQuantity : Int) ∧
        (t.legs.getD 1 dummyLeg).legAction = none)) ∧
    (parseThinkorswimTrade "t" dateT0 shopStr).map
        (fun t => (t.symbol, t.spreadType, t.isWeekly,
          t.legs.map fun l => (l.quantity, l.legAction))) =
      some ("SHOP", SpreadType.CALENDAR, true,
        [(-4, some LegAction.OPEN), (4, some LegAction.CLOSE)]) := by
  constructor
  · intro id now input t hp hst hr h2
    obtain ⟨a, q, p, s, hA, hQ, hP, hS, ht⟩ := parse_some_eq hp
    subst ht
    rw [assemble_spreadType] at hst
    rw [assemble_legs, buildLegs_length] at h2
    rw [assemble_action, assemble_totalQuantity, assemble_legs]
    rw [buildLegs_getD _ _ _ _ _ _ _ _ (h2 ▸ Nat.zero_lt_two),
      buildLegs_getD _ _ _ _ _ _ _ _ (h2 ▸ Nat.one_lt_two)]
    have hcd : (detectSpreadType (normalizedOf input) (legCountOf input) =
        SpreadType.CALENDAR ∨
        detectSpreadType (normalizedOf input) (legCountOf input) =
        SpreadType.DIAGONAL) := hst
    constructor
    · intro ha
      subst ha
      rcases hst with hst | hst <;>
        simp [mkLeg, legQty, legActionOf, hr, hst]
    · intro ha
      subst ha
      rcases hst with hst | hst <;>
        simp [mkLeg, legQty, legActionOf, hr, hst]
  · decide

/-- Witness for C3: the general rule instantiated at the SHOP calendar
fixture, a SELL. -/
theorem c3_calendar_diagonal_legs_witness :
    parseThinkorswimTrade "t" dateT0 shopStr = some shopTrade ∧
    (shopTrade.legs.getD 0 dummyLeg).quantity = -(shopTrade.totalQuantity : Int) ∧
    (shopTrade.legs.getD 0 dummyLeg).legAction = some LegAction.OPEN ∧
    (shopTrade.legs.getD 1 dummyLeg).quantity = (shopTrade.totalQuantity : Int) ∧
    (shopTrade.legs.getD 1 dummyLeg).legAction = some LegAction.CLOSE :=
  have hp : parseThinkorswimTrade "t" dateT0 shopStr = some shopTrade := by
    decide
  ⟨hp, (c3_calendar_diagonal_legs.1 "t" dateT0 shopStr shopTrade hp
    (Or.inl (by decide)) (by decide) (by decide)).1 (by decide)⟩

/-- An all-whitespace string trims to nothing. -/
theorem jsTrim_eq_nil_of_all_ws {l : List Char} (h : l.all isWS = true) :
    jsTrim l = [] := by
  unfold jsTrim
  have h1 : l.dropWhile isWS = [] :=
    List.dropWhile_eq_nil_iff.mpr fun x hx => by
      simpa using List.all_eq_true.mp h x hx
  simp [h1]

/-- C4: parse is a total function into Option Trade (the failure
sentinel is none), and it returns the sentinel whenever the input is
empty or whitespace-only, the anchored action extraction fails, the
quantity extraction fails, the price extraction fails, or no symbol
pattern resolves.  Each conjunct is stated through the extraction step
the source short-circuits on (source lines 65, 78, 83, 95, 163). -/
theorem c4_parse_failure_conditions :
    ∀ (id : String) (now : JSDate) (input : String),
      (input.data.all isWS = true → parseThinkorswimTrade id now input = none) ∧
      (actionOf (normalizedOf input) = none →
        parseThinkorswimTrade id now input = none) ∧
      (qtyOf (normalizedOf input) = none →
        parseThinkorswimTrade id now input = none) ∧
      (priceOf (normalizedOf input) = none →
        parseThinkorswimTrade id now input = none) ∧
      (symbolOf (normalizedOf input) = none →
        parseThinkorswimTrade id now input = none) := by
  intro id now input
  refine ⟨?_, ?_, ?_, ?_, ?_⟩
  · intro h
    have h0 : (jsTrim input.data).isEmpty = true := by
      rw [jsTrim_eq_nil_of_all_ws h]
      rfl
    simp [parseThinkorswimTrade, h0]
  · intro h
    by_cases h0 : (jsTrim input.data).isEmpty
    · simp [parseThinkorswimTrade, h0]
    · simp [parseThinkorswimTrade, h0, h]
  · intro h
    by_cases h0 : (jsTrim input.data).isEmpty
    · simp [parseThinkorswimTrade, h0]
    · cases hA : actionOf (normalizedOf input) <;>
        simp [parseThinkorswimTrade, h0, hA, h]
  · intro h
    by_cases h0 : (jsTrim input.data).isEmpty
    · simp [parseThinkorswimTrade, h0]
    · cases hA : actionOf (normalizedOf input) <;>
        cases hQ : qtyOf (normalizedOf input) <;>
        simp [parseThinkorswimTrade, h0, hA, hQ, h]
  · intro h
    by_cases h0 : (jsTrim input.data).isEmpty
    · simp [parseThinkorswimTrade, h0]
    · cases hA : actionOf (normalizedOf input) <;>
        cases hQ : qtyOf (normalizedOf input) <;>
        cases hP : priceOf (normalizedOf input) <;>
        simp [parseThinkorswimTrade, h0, hA, hQ, hP, h]

/-- Witness for C4: a whitespace-only input and the no-action input
hello world both map to the failure sentinel. -/
theorem c4_parse_failure_conditions_witness :
    parseThinkorswimTrade "t" dateT0 "   " = none ∧
    parseThinkorswimTrade "t" dateT0 "hello world" = none :=
  ⟨(c4_parse_failure_conditions "t" dateT0 "   ").1 (by decide),
   (c4_parse_failure_conditions "t" dateT0 "hello world").2.1 (by decide)⟩

/-- C5 counterexample: the unknown-month scenario input of the
specification parses successfully, while the claim requires the failure
sentinel. -/
theorem c5_unknown_month_counterexample :
    (parseThinkorswimTrade "t" dateT0 xyzStr).isSome = true := by decide

/-- C5 amended: parseDate does return null on a month abbreviation
outside the 12-entry table, but the date-collection loop merely skips
such a token instead of failing the parse; the scenario input parses
successfully with an empty date list, the leg expiration falling back
to the parse date. -/
theorem c5_unknown_month_amended :
    (∀ d m y, monthNum (m.map Char.toUpper) = none → parseDate d m y = none) ∧
    datesOf (normalizedOf xyzStr) = [] ∧
    (parseThinkorswimTrade "t" dateT0 xyzStr).map
        (fun t => (t.symbol, t.spreadType, t.legs.map OptionLeg.expiration)) =
      some ("XYZ", SpreadType.SINGLE, [dateT0]) := by
  refine ⟨?_, by decide, by decide⟩
  intro d m y h
  unfold parseDate
  rw [h]

/-- Witness for C5: the amended parseDate clause at the XXX month of the
scenario input. -/
theorem c5_unknown_month_amended_witness :
    monthNum (['X', 'X', 'X'].map Char.toUpper) = none ∧
    parseDate ['5'] ['X', 'X', 'X'] ['2', '6'] = none :=
  ⟨by decide,
   c5_unknown_month_amended.1 ['5'] ['X', 'X', 'X'] ['2', '6'] (by decide)⟩

/-- C6 counterexample: a keyword-classified CALENDAR trade whose single
expiration, strike and type give it one leg, while the claim requires
every CALENDAR trade to have exactly 2 legs. -/
theorem c6_leg_count_counterexample :
    (parseThinkorswimTrade "t" dateT0 cal1Str).map
        (fun t => (t.spreadType, t.legs.length)) =
      some (SpreadType.CALENDAR, 1) := by decide

/-- When no keyword substring fires, detectSpreadType is its leg-count
fallback. -/
theorem detectSpreadType_of_no_keyword {s : List Char}
    (h : hasSpreadKeyword s = false) (lc : Nat) :
    detectSpreadType s lc = fallbackSpreadType lc := by
  unfold hasSpreadKeyword at h
  simp only [Bool.or_eq_false_iff] at h
  obtain ⟨⟨⟨⟨⟨⟨⟨⟨⟨⟨⟨⟨⟨h1, h2⟩, h3⟩, h4⟩, h5⟩, h6⟩, h7⟩, h8⟩, h9⟩, h10⟩,
    h11⟩, h12⟩, h13⟩, h14⟩ := h
  unfold detectSpreadType fallbackSpreadType
  simp [h1, h2, h3, h4, h5, h6, h7, h8, h9, h10, h11, h12, h13, h14]

/-- C6 amended: the leg array length always equals the parser's leg
count formula (the maximum of the dates, strikes, types and ratio array
lengths, with 1 for an absent ratio array); the claimed spread-type to
leg-count correspondence holds only for the keyword-free inputs
classified by the leg-count fallback, where it is immediate (SINGLE at
1, VERTICAL at 2, IRON_CONDOR at 4). -/
theorem c6_leg_count_amended :
    ∀ (id : String) (now : JSDate) (input : String) (t : Trade),
      parseThinkorswimTrade id now input = some t →
      t.legs.length = legCountOf input ∧
      (hasSpreadKeyword (normalizedOf input) = false →
        t.spreadType = fallbackSpreadType (legCountOf input)) := by
  intro id now input t hp
  obtain ⟨a, q, p, s, hA, hQ, hP, hS, ht⟩ := parse_some_eq hp
  subst ht
  refine ⟨by rw [assemble_legs, buildLegs_length], fun hk => ?_⟩
  rw [assemble_spreadType, detectSpreadType_of_no_keyword hk]

/-- Witness for C6: the amended statement at the keyword-free SINGLE
fixture, whose leg count formula gives 1. -/
theorem c6_leg_count_amended_witness :
    parseThinkorswimTrade "t" dateT0 beStr = some beTrade ∧
    beTrade.legs.length = legCountOf beStr ∧
    beTrade.spreadType = fallbackSpreadType (legCountOf beStr) :=
  have hp : parseThinkorswimTrade "t" dateT0 beStr = some beTrade := by decide
  have h := c6_leg_count_amended "t" dateT0 beStr beTrade hp
  ⟨hp, h.1, h.2 (by decide)⟩

/-- C7: every successfully parsed VERTICAL trade with exactly 2 legs and
no ratio array has leg quantities +totalQuantity, -totalQuantity on BUY
and -totalQuantity, +totalQuantity on SELL, and the two leg quantities
cancel. -/
theorem c7_vertical_sign_conservation :
    ∀ (id : String) (now : JSDate) (input : String) (t : Trade),
      parseThinkorswimTrade id now input = some t →
      t.spreadType = SpreadType.VERTICAL →
      ratiosOf (normalizedOf input) = none →
      t.legs.length = 2 →
      ((t.legs.getD 0 dummyLeg).quantity, (t.legs.getD 1 dummyLeg).quantity) =
        (if t.action = TradeAction.BUY
         then ((t.totalQuantity : Int), -(t.totalQuantity : Int))
         else (-(t.totalQuantity : Int), (t.totalQuantity : Int))) ∧
      (t.legs.getD 0 dummyLeg).quantity + (t.legs.getD 1 dummyLeg).quantity
        = 0 := by
  intro id now input t hp hst hr h2
  obtain ⟨a, q, p, s, hA, hQ, hP, hS, ht⟩ := parse_some_eq hp
  subst ht
  rw [assemble_spreadType] at hst
  rw [assemble_legs, buildLegs_length] at h2
  rw [assemble_action, assemble_totalQuantity, assemble_legs]
  rw [h2] at hst
  rw [buildLegs_getD _ _ _ _ _ _ _ _ (by omega),
    buildLegs_getD _ _ _ _ _ _ _ _ (by omega)]
  rw [h2]
  cases a <;> simp [mkLeg, legQty, hr, hst]

/-- Witness for C7: the rule instantiated at a concrete BUY vertical. -/
theorem c7_vertical_sign_conservation_witness :
    parseThinkorswimTrade "t" dateT0 vertStr = some vertTrade ∧
    ((vertTrade.legs.getD 0 dummyLeg).quantity,
      (vertTrade.legs.getD 1 dummyLeg).quantity) =
      (if vertTrade.action = TradeAction.BUY
       then ((vertTrade.totalQuantity : Int), -(vertTrade.totalQuantity : Int))
       else (-(vertTrade.totalQuantity : Int), (vertTrade.totalQuantity : Int))) ∧
    (vertTrade.legs.getD 0 dummyLeg).quantity +
      (vertTrade.legs.getD 1 dummyLeg).quantity = 0 :=
  have hp : parseThinkorswimTrade "t" dateT0 vertStr = some vertTrade := by
    decide
  have h := c7_vertical_sign_conservation "t" dateT0 vertStr vertTrade hp
    (by decide) (by decide) (by decide)
  ⟨hp, h.1, h.2⟩

/-- C8 counterexample: on an input with trailing whitespace the first
BUY / SELL occurrence starts at position 0, so the claim predicts that
rawInput is the input itself; the parser trims the trailing blank away,
so rawInput differs from the input. -/
theorem c8_rawinput_counterexample :
    ((reFirst reActionSearch trailStr.data).map fun m => m.1) = some 0 ∧
    (parseThinkorswimTrade "t" dateT0 trailStr).map Trade.rawInput =
      some noDateStr ∧
    noDateStr ≠ trailStr :=
  ⟨by decide, by decide, by decide⟩

/-- C8 amended: the returned rawInput is exactly the trimmed input with
everything before a late first action occurrence stripped - that is, it
always equals the rawOf step of the source (trim, then conditional
strip), and is in particular a suffix of the trimmed input with no other
character mutation. -/
theorem c8_rawinput_amended :
    ∀ (id : String) (now : JSDate) (input : String) (t : Trade),
      parseThinkorswimTrade id now input = some t →
      t.rawInput.data = rawOf input ∧
      ∃ k, rawOf input = (jsTrim input.data).drop k := by
  intro id now input t hp
  obtain ⟨a, q, p, s, hA, hQ, hP, hS, ht⟩ := parse_some_eq hp
  subst ht
  refine ⟨by rw [assemble_rawInput], ?_⟩
  unfold rawOf
  cases h : reFirst reActionSearch (jsTrim input.data) with
  | none => exact ⟨0, by simp [h]⟩
  | some m =>
    obtain ⟨st, en, cp⟩ := m
    by_cases h0 : 0 < st
    · exact ⟨st, by simp [h, h0]⟩
    · exact ⟨0, by simp [h, h0]⟩

/-- Witness for C8: the amended statement at an input with leading
noise; rawInput drops the first three characters of the trimmed
input. -/
theorem c8_rawinput_amended_witness :
    parseThinkorswimTrade "t" dateT0 zzStr = some zzTrade ∧
    zzTrade.rawInput.data = rawOf zzStr ∧
    rawOf zzStr = (jsTrim zzStr.data).drop 3 :=
  have hp : parseThinkorswimTrade "t" dateT0 zzStr = some zzTrade := by decide
  have h := c8_rawinput_amended "t" dateT0 zzStr zzTrade hp
  ⟨hp, h.1, by decide⟩

/-- C9 counterexample: an input whose only IC characters sit inside the
symbol ICE, with none of the earlier keywords, is classified
IRON_CONDOR by the keyword search even though its leg count is 1 (the
claimed fallback would give SINGLE). -/
theorem c9_ic_substring_counterexample :
    (parseThinkorswimTrade "t" dateT0 iceStr).map
        (fun t => (t.spreadType, t.legs.length)) =
      some (SpreadType.IRON_CONDOR, 1) := by decide

/-- C9 amended: the classifier tests IC by bare substring containment,
so any input containing IC anywhere - including inside a longer word -
and none of the keyword substrings checked earlier (ROLL, CALENDAR,
DIAGONAL, VERT, BUTTERFLY, FLY, CONDOR) classifies as IRON_CONDOR; the
leg-count fallback is never consulted for such inputs. -/
theorem c9_ic_substring_amended :
    ∀ (s : List Char) (lc : Nat),
      hasSub (s.map Char.toUpper) "IC".data = true →
      hasSub (s.map Char.toUpper) "ROLL".data = false →
      hasSub (s.map Char.toUpper) "CALENDAR".data = false →
      hasSub (s.map Char.toUpper) "DIAGONAL".data = false →
      hasSub (s.map Char.toUpper) "VERT".data = false →
      hasSub (s.map Char.toUpper) "BUTTERFLY".data = false →
      hasSub (s.map Char.toUpper) "FLY".data = false →
      hasSub (s.map Char.toUpper) "CONDOR".data = false →
      detectSpreadType s lc = SpreadType.IRON_CONDOR := by
  intro s lc h0 h1 h2 h3 h4 h5 h6 h7
  unfold detectSpreadType
  simp [h0, h1, h2, h3, h4, h5, h6, h7]

/-- Witness for C9: the amended rule at the ICE input and leg count 1. -/
theorem c9_ic_substring_amended_witness :
    detectSpreadType iceStr.data 1 = SpreadType.IRON_CONDOR :=
  c9_ic_substring_amended iceStr.data 1 (by decide) (by decide) (by decide)
    (by decide) (by decide) (by decide) (by decide) (by decide)

/-- The symbol of an assembled trade. -/
theorem assemble_symbol (id : String) (now : JSDate) (input : String)
    (a : TradeAction) (q : Nat) (p : Rat) (s : List Char) :
    (assembleTrade id now input a q p s).symbol = String.mk s := by
  simp only [assembleTrade]

/-- The multiplier of an assembled trade. -/
theorem assemble_multiplier (id : String) (now : JSDate) (input : String)
    (a : TradeAction) (q : Nat) (p : Rat) (s : List Char) :
    (assembleTrade id now input a q p s).multiplier =
      multiplierOf (normalizedOf input) := by
  simp only [assembleTrade]

/-- The weekly flag of an assembled trade. -/
theorem assemble_isWeekly (id : String) (now : JSDate) (input : String)
    (a : TradeAction) (q : Nat) (p : Rat) (s : List Char) :
    (assembleTrade id now input a q p s).isWeekly =
      isWeeklyOf (normalizedOf input) := by
  simp only [assembleTrade]

/-- The price of an assembled trade. -/
theorem assemble_price (id : String) (now : JSDate) (input : String)
    (a : TradeAction) (q : Nat) (p : Rat) (s : List Char) :
    (assembleTrade id now input a q p s).price = p := by
  simp only [assembleTrade]

/-- The order type of an assembled trade. -/
theorem assemble_orderType (id : String) (now : JSDate) (input : String)
    (a : TradeAction) (q : Nat) (p : Rat) (s : List Char) :
    (assembleTrade id now input a q p s).orderType =
      orderTypeOf (normalizedOf input) := by
  simp only [assembleTrade]

/-- The GTC flag of an assembled trade. -/
theorem assemble_isGTC (id : String) (now : JSDate) (input : String)
    (a : TradeAction) (q : Nat) (p : Rat) (s : List Char) :
    (assembleTrade id now input a q p s).isGTC =
      isGTCOf (normalizedOf input) := by
  simp only [assembleTrade]

/-- getD at an in-range index ignores the default. -/
theorem getD_indep {α : Type} (l : List α) {n : Nat} (h : n < l.length)
    (d1 d2 : α) : l.getD n d1 = l.getD n d2 := by
  rw [List.getD_eq_getElem?_getD, List.getD_eq_getElem?_getD,
    List.getElem?_eq_getElem h]
  rfl

/-- With at least one parsed date, the leg expiration does not consult
the wall clock. -/
theorem legExpiration_now_indep (st : SpreadType) (ds : List JSDate)
    (lc i : Nat) (h : ds ≠ []) (n1 n2 : JSDate) :
    legExpiration st ds lc i n1 = legExpiration st ds lc i n2 := by
  have hlen : 0 < ds.length := List.length_pos.mpr h
  unfold legExpiration
  simp only [if_neg (show ¬ds.length = 0 by omega)]
  by_cases hroll : st = SpreadType.ROLL ∧ ds.length = 2 ∧ lc = 4
  · have h2 := hroll.2.1
    simp only [if_pos hroll]
    by_cases hi : i < 2
    · simp only [if_pos hi]
      exact getD_indep _ (by omega) _ _
    · simp only [if_neg hi]
      exact getD_indep _ (by omega) _ _
  · simp only [if_neg hroll]
    exact getD_indep _ (Nat.mod_lt _ hlen) _ _

/-- C10 counterexample: the same dateless input parsed at two clock
values yields trades with different legs (the default expiration is the
parse-time date), while the claim allows only id and tradeDate to
differ. -/
theorem c10_idempotence_counterexample :
    (parseThinkorswimTrade "x" dateT0 noDateStr).isSome = true ∧
    (parseThinkorswimTrade "x" dateT0 noDateStr).map Trade.legs ≠
      (parseThinkorswimTrade "x" dateT1 noDateStr).map Trade.legs :=
  ⟨by decide, by decide⟩

/-- C10 amended: two parses of the same input agree on every field
except id, tradeDate, and the leg expirations; the legs agree up to
expiration always, and agree outright whenever at least one date was
parsed (only the dateless default consults the clock). -/
theorem c10_idempotence_amended :
    ∀ (id1 id2 : String) (now1 now2 : JSDate) (input : String) (t1 t2 : Trade),
      parseThinkorswimTrade id1 now1 input = some t1 →
      parseThinkorswimTrade id2 now2 input = some t2 →
      t1.rawInput = t2.rawInput ∧ t1.action = t2.action ∧
      t1.totalQuantity = t2.totalQuantity ∧ t1.symbol = t2.symbol ∧
      t1.multiplier = t2.multiplier ∧ t1.isWeekly = t2.isWeekly ∧
      t1.spreadType = t2.spreadType ∧ t1.price = t2.price ∧
      t1.orderType = t2.orderType ∧ t1.isGTC = t2.isGTC ∧
      t1.legs.map (fun l => (l.quantity, l.strike, l.optionType, l.legAction))
        = t2.legs.map
          (fun l => (l.quantity, l.strike, l.optionType, l.legAction)) ∧
      (datesOf (normalizedOf input) ≠ [] → t1.legs = t2.legs) := by
  intro id1 id2 now1 now2 input t1 t2 hp1 hp2
  obtain ⟨a1, q1, p1, s1, hA1, hQ1, hP1, hS1, ht1⟩ := parse_some_eq hp1
  obtain ⟨a2, q2, p2, s2, hA2, hQ2, hP2, hS2, ht2⟩ := parse_some_eq hp2
  have ea : a1 = a2 := Option.some.inj (hA1.symm.trans hA2)
  have eq2 : q1 = q2 := Option.some.inj (hQ1.symm.trans hQ2)
  have ep : p1 = p2 := Option.some.inj (hP1.symm.trans hP2)
  have es : s1 = s2 := Option.some.inj (hS1.symm.trans hS2)
  subst ht1 ht2 ea eq2 ep es
  refine ⟨by rw [assemble_rawInput, assemble_rawInput],
    by rw [assemble_action, assemble_action],
    by rw [assemble_totalQuantity, assemble_totalQuantity],
    by rw [assemble_symbol, assemble_symbol],
    by rw [assemble_multiplier, assemble_multiplier],
    by rw [assemble_isWeekly, assemble_isWeekly],
    by rw [assemble_spreadType, assemble_spreadType],
    by rw [assemble_price, assemble_price],
    by rw [assemble_orderType, assemble_orderType],
    by rw [assemble_isGTC, assemble_isGTC], ?_, ?_⟩
  · rw [assemble_legs, assemble_legs]
    unfold buildLegs
    rw [List.map_map, List.map_map]
    apply List.map_congr_left
    intro i hi
    simp [Function.comp, mkLeg]
  · intro hne
    rw [assemble_legs, assemble_legs]
    unfold buildLegs
    apply List.map_congr_left
    intro i hi
    unfold mkLeg
    rw [legExpiration_now_indep _ _ _ _ hne]

/-- Witness for C10: the amended statement at a dated input and two
clock values; the legs and price coincide outright. -/
theorem c10_idempotence_amended_witness :
    parseThinkorswimTrade "t" dateT0 aStr = some (aTrade dateT0) ∧
    parseThinkorswimTrade "t" dateT1 aStr = some (aTrade dateT1) ∧
    (aTrade dateT0).price = (aTrade dateT1).price ∧
    (aTrade dateT0).legs = (aTrade dateT1).legs :=
  have hp1 : parseThinkorswimTrade "t" dateT0 aStr = some (aTrade dateT0) := by
    decide
  have hp2 : parseThinkorswimTrade "t" dateT1 aStr = some (aTrade dateT1) := by
    decide
  have h := c10_idempotence_amended "t" "t" dateT0 dateT1 aStr
    (aTrade dateT0) (aTrade dateT1) hp1 hp2
  ⟨hp1, hp2, h.2.2.2.2.2.2.2.1, h.2.2.2.2.2.2.2.2.2.2.2 (by decide)⟩
